import Mathlib

/-!
Verification development for the PYPI-Scraper crawler (`main.go`).

The Go program is shallowly embedded: pure computations become Lean
functions, external effects (HTTP transport, `io.ReadAll`) become explicit
oracle parameters, and the shared `RequestManager` counters become explicit
state threading.  Machine counters that can wrap (`atomic.Uint32`,
`atomic.Uint64`) are modelled as `Nat` reduced modulo `2^32` / `2^64` at
each update.
-/

set_option maxRecDepth 10000
set_option linter.unusedVariables false

/-! ## Anchor extractor (`exctractUrls`, main.go lines 132-145)

The Go code matches the regular expression

  `<a href=\"([^\"]*)".*>([^<]*)</a>`

(inside a Go raw string, `\"` denotes a backslash-escaped quote in regex
syntax, i.e. a literal `"`) with Go's leftmost-first (Perl-like, greedy)
match semantics, via `FindAllSubmatch(body, -1)`: successive
non-overlapping leftmost matches, resuming after the end of each match.
`.` matches every character except a newline; negated classes such as
`[^"]` do include the newline.

We embed this as a direct backtracking matcher specialised to this one
pattern.  Since `[^"]*` is immediately followed by the literal `"`, and
`[^<]*` by the literal `<` of `</a>`, those two subpatterns match
deterministically up to the next `"` (resp. `<`); the only genuine
backtracking is the greedy `.*` before `>`, realised in `starGt` by
preferring the longer consumption. -/

/-- One extracted anchor: capture group 1 (`href`) and group 2 (`text`)
of the Go regex (main.go lines 132-135). -/
structure AnchorTag where
  href : String
  text : String
deriving DecidableEq

/-- The literal head of the pattern: `<a href="`. -/
def anchorOpen : List Char := ['<', 'a', ' ', 'h', 'r', 'e', 'f', '=', '"']

/-- The literal tail of the pattern: `</a>`. -/
def anchorClose : List Char := ['<', '/', 'a', '>']

/-- Match a literal character sequence at the head of the input, returning
the rest of the input. -/
def dropLit : List Char → List Char → Option (List Char)
  | [], s => some s
  | _ :: _, [] => none
  | c :: cs, d :: ds => if c = d then dropLit cs ds else none

/-- Match the regex fragment `([^<]*)</a>` at the head of the input.
`[^<]*` is greedy and followed by a literal beginning with `<`, so it
deterministically consumes everything up to the first `<`.  Returns the
captured text and the input remaining after `</a>`. -/
def tailCap (s : List Char) : Option (List Char × List Char) :=
  match dropLit anchorClose (s.dropWhile (· ≠ '<')) with
  | none => none
  | some rest => some (s.takeWhile (· ≠ '<'), rest)

/-- Match the regex fragment `.*>([^<]*)</a>` at the head of the input with
greedy (leftmost-first) semantics: prefer letting `.*` (which cannot cross
a newline) consume one more character; only if that whole continuation
fails, try to match the `>` here. -/
def starGt : List Char → Option (List Char × List Char)
  | [] => none
  | c :: cs =>
    match if c ≠ '\n' then starGt cs else none with
    | some r => some r
    | none => if c = '>' then tailCap cs else none

/-- Match the whole anchor regex at the head of the input.  After the
literal `<a href="`, the greedy `[^"]*` followed by the literal `"`
deterministically captures everything up to the first `"`. Returns the
anchor and the input remaining after the match. -/
def matchAnchor (s : List Char) : Option (AnchorTag × List Char) :=
  match dropLit anchorOpen s with
  | none => none
  | some s1 =>
    match s1.dropWhile (· ≠ '"') with
    | [] => none
    | _ :: s2 =>
      match starGt s2 with
      | none => none
      | some (t, rest) =>
        some ({ href := ⟨s1.takeWhile (· ≠ '"')⟩, text := ⟨t⟩ }, rest)

/-- `FindAllSubmatch(body, -1)`: repeatedly find the leftmost match,
resuming after its end.  Every match consumes at least one character, so
`fuel := body.length` steps suffice; the fuel only makes the recursion
structural. -/
def scanAux : Nat → List Char → List AnchorTag
  | 0, _ => []
  | _ + 1, [] => []
  | fuel + 1, c :: cs =>
    match matchAnchor (c :: cs) with
    | some (a, rest) => a :: scanAux fuel rest
    | none => scanAux fuel cs

/-- `exctractUrls` (main.go lines 137-145), on the body bytes. -/
def exctractUrls (body : List Char) : List AnchorTag :=
  scanAux body.length body

/-- Whether the input contains the literal substring `<a href="` anywhere.
Every regex match must begin with this literal. -/
def containsAnchorOpen : List Char → Bool
  | [] => false
  | c :: cs => (dropLit anchorOpen (c :: cs)).isSome || containsAnchorOpen cs

/-- One well-formed anchor `<a href="H">T</a>`. -/
def anchorCore (h t : List Char) : List Char :=
  anchorOpen ++ h ++ '"' :: '>' :: t ++ anchorClose

/-- A document of newline-terminated well-formed anchor lines. -/
def joinLines : List (List Char × List Char) → List Char
  | [] => []
  | (h, t) :: rest => anchorCore h t ++ '\n' :: joinLines rest

/-- The side conditions on one anchor line `<a href="H">T</a>`: the href
contains no double quote and the text contains no angle bracket and no
newline (so the anchor really is alone on its line). -/
def LineOK (p : List Char × List Char) : Prop :=
  '"' ∉ p.1 ∧ '<' ∉ p.2 ∧ '>' ∉ p.2 ∧ '\n' ∉ p.2

instance (p : List Char × List Char) : Decidable (LineOK p) := by
  unfold LineOK
  infer_instance

example : anchorOpen = "<a href=\"".data := by decide

example : anchorClose = "</a>".data := by decide

example : exctractUrls "<a href=\"pkg-a/\">pkg-a</a>".data =
    [{ href := "pkg-a/", text := "pkg-a" }] := by decide

example : exctractUrls "no anchors here".data = [] := by decide

-- Two well-formed anchors on one line are merged by the greedy `.*`.
example : exctractUrls "<a href=\"A\">x</a><a href=\"B\">y</a>".data =
    [{ href := "A", text := "y" }] := by decide

/-! ## URLs

`net/url` is an external collaborator of the repository (the Go standard
library), so its two operations used by `main.go` are modelled.

Modelled from the spec: `url.Parse` — "Parse the URL; fail immediately
with a `MalformedURL` error if parsing fails".  The model fails exactly on
URLs containing an ASCII control character (Go's
"net/url: invalid control character in URL") and otherwise splits
`scheme://host/path`; query and fragment components are not modelled
(never exercised by the crawler's registry URLs). -/

/-- A parsed URL, restricted to the components the crawler touches. -/
structure GoURL where
  scheme : String
  host : String
  path : String
deriving DecidableEq

/-- Split at the first occurrence of `://`, if any. -/
def splitSchemeSep : List Char → Option (List Char × List Char)
  | [] => none
  | c :: cs =>
    match dropLit "://".data (c :: cs) with
    | some rest => some ([], rest)
    | none =>
      match splitSchemeSep cs with
      | some (l, r) => some (c :: l, r)
      | none => none

/-- Modelled from the spec: `url.Parse` (see the section comment).
Fails iff the string contains an ASCII control character; an absolute URL
`s://h/p` is split into scheme/host/path, anything else is a relative
reference carried entirely in `path`. -/
def urlParse (s : String) : Option GoURL :=
  if s.data.any (fun c => c.toNat < 32 ∨ c.toNat = 127) then none
  else
    match splitSchemeSep s.data with
    | some (sch, rest) =>
      some { scheme := ⟨sch⟩, host := ⟨rest.takeWhile (· ≠ '/')⟩,
             path := ⟨rest.dropWhile (· ≠ '/')⟩ }
    | none => some { scheme := "", host := "", path := s }

/-- RFC 3986 path merge: the base path up to and including its last `/`,
followed by the reference path. -/
def mergePaths (bp rp : List Char) : List Char :=
  (bp.reverse.dropWhile (· ≠ '/')).reverse ++ rp

/-- Modelled from the spec: `ResolveReference` — "resolving a relative
href against a base URL yields an absolute URL equal to standard
relative-reference resolution (e.g., base `https://x/simple/`, href
`pkg-a/` → `https://x/simple/pkg-a/`)".  Restricted to scheme, host and
path; dot-segment removal is not modelled (the crawler's hrefs have no
dot segments). -/
def GoURL.resolveReference (base ref : GoURL) : GoURL :=
  if ref.scheme ≠ "" then ref
  else if ref.host ≠ "" then { ref with scheme := base.scheme }
  else if ref.path.data.head? = some '/' then
    { scheme := base.scheme, host := base.host, path := ref.path }
  else if ref.path = "" then base
  else
    { scheme := base.scheme, host := base.host,
      path := ⟨mergePaths base.path.data ref.path.data⟩ }

/-- `URL.String()` for the modelled components. -/
def GoURL.render (u : GoURL) : String :=
  if u.scheme = "" then u.path else u.scheme ++ "://" ++ u.host ++ u.path

example : GoURL.render
    (GoURL.resolveReference ⟨"https", "x", "/simple/"⟩ ⟨"", "", "pkg-a/"⟩) =
    "https://x/simple/pkg-a/" := by decide

/-! ## Errors, responses and the concurrency governor
(`RequestManager`, main.go lines 36-83)

The HTTP transport is an external collaborator: each call site takes the
transport's outcome as an oracle argument.  A response carries the final
request URL (`response.Request.URL`, i.e. after redirects), the reported
`ContentLength` (`-1` when unknown), and the outcome of `io.ReadAll` on
its body.

The `atomic.Int64` counters only ever increment, one per actual HTTP
request; they are modelled as unbounded naturals (wraparound of a signed
64-bit counter is unreachable in any run). -/

/-- The error values `main.go` can observe, one constructor per source. -/
inductive GoError where
  | malformedURL (u : String)
  | netError (msg : String)
  | readError (msg : String)
deriving DecidableEq

/-- An `*http.Response` as far as the crawler inspects it. -/
structure HttpResponse where
  /-- `response.Request.URL`: the URL of the final request after redirects. -/
  requestURL : GoURL
  /-- `response.ContentLength` (`int64`; `-1` when unknown). -/
  contentLength : Int
  /-- The outcome of `io.ReadAll(response.Body)`. -/
  body : Except GoError (List Char)

/-- `RequestManager` (main.go lines 36-48).  `requestRetryDelay` is kept
for structural fidelity (a duration, modelled in nanoseconds) but plays no
role in the functional model. -/
structure RequestManager where
  totalRequests : Nat
  requestsFinished : Nat
  maxConcurrentRequests : Int
  requestRetryDelay : Nat
deriving DecidableEq

/-- `getRunningRequests` (main.go lines 50-52): the int64 difference of
the two counters. -/
def RequestManager.getRunningRequests (client : RequestManager) : Int :=
  (client.totalRequests : Int) - (client.requestsFinished : Int)

/-- `Request` (main.go lines 57-74).  The spin-wait at lines 58-60 returns
only once the running count drops below the ceiling; in this one-call
model a blocked call is `none` (it cannot return without another thread
completing).  Otherwise: parse the URL (fail immediately, state
untouched); increment `totalRequests`; take the transport's outcome
`net`; increment `requestsFinished` regardless of the outcome. -/
def RequestManager.Request (client : RequestManager) (method request_url : String)
    (net : Except GoError HttpResponse) :
    Option (Except GoError HttpResponse × RequestManager) :=
  if client.getRunningRequests ≥ client.maxConcurrentRequests then none
  else
    match urlParse request_url with
    | none => some (.error (.malformedURL request_url), client)
    | some _ =>
      some (net,
        { client with
          totalRequests := client.totalRequests + 1,
          requestsFinished := client.requestsFinished + 1 })

/-- `Get` (main.go lines 77-79). -/
def RequestManager.Get (client : RequestManager) (request_url : String)
    (net : Except GoError HttpResponse) :
    Option (Except GoError HttpResponse × RequestManager) :=
  client.Request "GET" request_url net

/-- `Head` (main.go lines 81-83). -/
def RequestManager.Head (client : RequestManager) (request_url : String)
    (net : Except GoError HttpResponse) :
    Option (Except GoError HttpResponse × RequestManager) :=
  client.Request "HEAD" request_url net

/-! ## Packages, distributions and discovery (main.go lines 85-172) -/

/-- `Package` (main.go lines 101-104). -/
structure Package where
  name : String
  url : String
deriving DecidableEq

/-- `Distribution` (main.go lines 86-90); the `pkg` pointer is modelled by
value (the parent `Package` is immutable after creation). -/
structure Distribution where
  pkg : Package
  name : String
  url : String
deriving DecidableEq

/-- `Distribution.getSizeBytes` (main.go lines 92-99): a governed `Head`;
on error return `(0, err)`, otherwise `(int(response.ContentLength), nil)`.
The `Option` layer is the governor's spin-wait, as in `Request`. -/
def Distribution.getSizeBytes (dist : Distribution) (c : RequestManager)
    (net : Except GoError HttpResponse) :
    Option ((Int × Option GoError) × RequestManager) :=
  match c.Head dist.url net with
  | none => none
  | some (.error e, c') => some ((0, some e), c')
  | some (.ok response, c') => some ((response.contentLength, none), c')

/-- `Package.getDistributions` (main.go lines 106-130): a governed `Get`,
`io.ReadAll` of the body, then one `Distribution` per extracted anchor —
`url` is the anchor's href taken verbatim, `name` its text, in anchor
order.  (The `err != nil` re-check inside the source loop at lines
122-124 is dead: `err` is the `ReadAll` error, already known `nil`.) -/
def Package.getDistributions (pkg : Package) (c : RequestManager)
    (net : Except GoError HttpResponse) :
    Option (Except GoError (List Distribution) × RequestManager) :=
  match c.Get pkg.url net with
  | none => none
  | some (.error e, c') => some (.error e, c')
  | some (.ok response, c') =>
    match response.body with
    | .error e => some (.error e, c')
    | .ok body =>
      some (.ok ((exctractUrls body).map fun anchorTag =>
        { pkg := pkg, url := anchorTag.href, name := anchorTag.text }), c')

/-- The anchor-resolution loop of `getPackages` (main.go lines 161-170):
parse each href (aborting with the parse error, discarding any packages
already built), resolve it against the response's final URL, and render
the absolute package URL. -/
def resolveAnchors (base : GoURL) : List AnchorTag → Except GoError (List Package)
  | [] => .ok []
  | anchorTag :: rest =>
    match urlParse anchorTag.href with
    | none => .error (.malformedURL anchorTag.href)
    | some u =>
      match resolveAnchors base rest with
      | .error e => .error e
      | .ok ps =>
        .ok ({ name := anchorTag.text,
               url := (base.resolveReference u).render } :: ps)

/-- `getPackages` (main.go lines 147-172).  The fetch is performed with
`http.Get`, the plain default client — `getPackages` does not receive a
`RequestManager` at all; `net` is that plain fetch's outcome.  On success
the body is read, anchors extracted, and each href resolved against
`response.Request.URL`. -/
def getPackages (net : Except GoError HttpResponse) :
    Except GoError (List Package) :=
  match net with
  | .error e => .error e
  | .ok response =>
    match response.body with
    | .error e => .error e
    | .ok body => resolveAnchors response.requestURL (exctractUrls body)

/-- `getPackages` with the `RequestManager` state threaded through
explicitly: the fetch at main.go line 148 is `http.Get(registry_url)`, the
plain default client, so the manager's counters are not touched (indeed, in
`main` the `RequestManager` is only constructed after `getPackages`
returns, main.go lines 175-183). -/
def getPackagesSt (client : RequestManager) (net : Except GoError HttpResponse) :
    Except GoError (List Package) × RequestManager :=
  (getPackages net, client)

/-! ## The result sink (`csv.Writer` over `os.Create`, main.go lines 208-216)

`csv.NewWriter(f)` wraps the file in a `bufio.Writer` with the default
4096-byte buffer.  `csv.Writer.Write` only fills that buffer; bytes reach
the file when the buffer overflows (or on an explicit `Flush`, which
`main` never calls — `f.Close()` does not flush the bufio layer). -/

/-- The sink: the bytes actually in the file, and the bytes still sitting
in the bufio buffer. -/
structure CsvSink where
  file : List Char
  buf : List Char
deriving DecidableEq

/-- `bufio.Writer.Write` with a 4096-byte buffer: a write that fits is
buffered; a write that does not fit fills the buffer to capacity, flushes
it, and retries; a large write against an empty buffer goes to the file
directly.  The fuel only makes the recursion structural; each round
strictly shrinks `buf.length + p.length`, so `buf.length + p.length + 1`
rounds always suffice. -/
def bufioWriteAux : Nat → CsvSink → List Char → CsvSink
  | 0, sink, _ => sink
  | fuel + 1, sink, p =>
    if sink.buf.length + p.length ≤ 4096 then { sink with buf := sink.buf ++ p }
    else if sink.buf.length = 0 then { sink with file := sink.file ++ p }
    else
      bufioWriteAux fuel
        { file := sink.file ++ sink.buf ++ p.take (4096 - sink.buf.length),
          buf := [] }
        (p.drop (4096 - sink.buf.length))

/-- `bufio.Writer.Write`. -/
def CsvSink.rawWrite (sink : CsvSink) (p : List Char) : CsvSink :=
  bufioWriteAux (sink.buf.length + p.length + 1) sink p

/-- CSV field encoding (`encoding/csv`, default comma, `UseCRLF = false`):
a field containing a comma, a quote or a line break is wrapped in quotes
with internal quotes doubled; other fields are written verbatim.  (The
crawler's fields never need quoting.) -/
def csvField (s : String) : List Char :=
  if s.data.any (fun c => c = ',' ∨ c = '"' ∨ c = '\n' ∨ c = '\r') then
    '"' :: (s.data.flatMap fun c => if c = '"' then ['"', '"'] else [c]) ++ ['"']
  else s.data

/-- One CSV record: comma-separated fields terminated by `\n`. -/
def csvRecord : List String → List Char
  | [] => ['\n']
  | [f] => csvField f ++ ['\n']
  | f :: rest => csvField f ++ ',' :: csvRecord rest

/-- `csv.Writer.Write(record)`: encode the record and push it through the
bufio layer. -/
def CsvSink.write (sink : CsvSink) (record : List String) : CsvSink :=
  sink.rawWrite (csvRecord record)

/-! ## The orchestrator (`main`, main.go lines 174-243)

The progress counters are `atomic.Uint32` / `atomic.Uint64`, modelled as
naturals reduced modulo `2^32` / `2^64` at each update.  `main` launches
one goroutine per package; the model executes the units sequentially in
launch order (one schedule of the real program — the per-row claims below
are schedule-insensitive, and the end-to-end scenario's row multiset does
not depend on the interleaving). -/

/-- The three progress counters (main.go lines 187-189). -/
structure Counters where
  packagesScraped : Nat
  distributionsFound : Nat
  totalSizeBytes : Nat
deriving DecidableEq

/-- The mutable state of `main`: the shared `RequestManager`, the progress
counters, and the csv sink. -/
structure MainState where
  client : RequestManager
  counters : Counters
  sink : CsvSink
deriving DecidableEq

/-- The per-distribution body of the crawl goroutine (main.go lines
227-235): increment `distributionsFound`; probe the size; add
`uint64(size)` to `totalSizeBytes` (two's-complement cast, i.e. mod
`2^64`) BEFORE checking the probe's error; on error panic (row never
written), otherwise append the row
`[pkg.name, distribution.name, "%d" of size]`.  `none` is the governor's
spin-wait never returning; `some (s, some e)` is a panic in state `s`. -/
def distStep (pkg : Package) (distribution : Distribution)
    (net : Except GoError HttpResponse) (s : MainState) :
    Option (MainState × Option GoError) :=
  let counters1 :=
    { s.counters with
      distributionsFound := (s.counters.distributionsFound + 1) % 2 ^ 32 }
  match distribution.getSizeBytes s.client net with
  | none => none
  | some ((size, errOpt), client') =>
    let counters2 :=
      { counters1 with
        totalSizeBytes :=
          (counters1.totalSizeBytes + (size % 2 ^ 64).toNat) % 2 ^ 64 }
    match errOpt with
    | some e => some ({ s with client := client', counters := counters2 }, some e)
    | none =>
      some ({ client := client', counters := counters2,
              sink := s.sink.write [pkg.name, distribution.name, toString size] },
            none)

/-- The network, as the oracles each call site consumes: the plain
`http.Get` of the registry index, and the transport outcome of each
governed GET / HEAD by URL. -/
structure Net where
  index : Except GoError HttpResponse
  pageGet : String → Except GoError HttpResponse
  headGet : String → Except GoError HttpResponse

/-- The inner loop of a crawl goroutine over its distributions (main.go
lines 227-235), stopping at the first panic. -/
def runDists (o : Net) (pkg : Package) :
    List Distribution → MainState → Option (MainState × Option GoError)
  | [], s => some (s, none)
  | d :: rest, s =>
    match distStep pkg d (o.headGet d.url) s with
    | none => none
    | some (s', some e) => some (s', some e)
    | some (s', none) => runDists o pkg rest s'

/-- One crawl goroutine (main.go lines 222-238): discover the package's
distributions, panicking on failure, then process each distribution. -/
def pkgUnit (o : Net) (pkg : Package) (s : MainState) :
    Option (MainState × Option GoError) :=
  match pkg.getDistributions s.client (o.pageGet pkg.url) with
  | none => none
  | some (.error e, client') => some ({ s with client := client' }, some e)
  | some (.ok distributions, client') =>
    runDists o pkg distributions { s with client := client' }

/-- The outcome of a run: blocked forever in the governor, a panic
(killing the process with the sink's buffer unflushed), or normal
completion (`f.Close()` — which does NOT flush the csv writer's buffer). -/
inductive RunResult where
  | hang
  | panicked (s : MainState) (e : GoError)
  | done (s : MainState)
deriving DecidableEq

/-- The launch loop of `main` (main.go lines 218-241): per package,
increment `packagesScraped` (line 221, in the launching loop) and run the
package's unit. -/
def mainLoop (o : Net) : List Package → MainState → RunResult
  | [], s => .done s
  | pkg :: rest, s =>
    let s1 :=
      { s with counters :=
        { s.counters with
          packagesScraped := (s.counters.packagesScraped + 1) % 2 ^ 32 } }
    match pkgUnit o pkg s1 with
    | none => .hang
    | some (s', some e) => .panicked s' e
    | some (s', none) => mainLoop o rest s'

/-- `main` (main.go lines 174-243): fetch the package list with the plain
client (panicking on failure, before the manager, counters, or output
file exist); build the `RequestManager` with ceiling 10000 and retry
delay 1s; create `output.csv` fresh; write the header row; run every
package's unit; `Done` closes the file without flushing the csv buffer. -/
def mainRun (o : Net) : RunResult :=
  match getPackages o.index with
  | .error e =>
    .panicked
      { client := { totalRequests := 0, requestsFinished := 0,
                    maxConcurrentRequests := 10000,
                    requestRetryDelay := 1000000000 },
        counters := ⟨0, 0, 0⟩, sink := ⟨[], []⟩ } e
  | .ok packages =>
    let s0 : MainState :=
      { client := { totalRequests := 0, requestsFinished := 0,
                    maxConcurrentRequests := 10000,
                    requestRetryDelay := 1000000000 },
        counters := ⟨0, 0, 0⟩,
        sink := ⟨[], []⟩ }
    let s1 := { s0 with
      sink := s0.sink.write ["Package", "Distribution", "Size"] }
    mainLoop o packages s1

/-! ## The governor as a concurrent transition system (for the running
count invariant)

Any number of threads execute `Request` concurrently.  The only writes to
the shared counters are line 69 (`totalRequests.Add(1)`) and line 71
(`requestsFinished.Add(1)`), and within each call line 69 precedes
line 71.  A state records the shared `RequestManager` plus the number of
threads currently between the two increments; the spin-wait's check is a
racy read, so the `issue` step is left unguarded (an over-approximation
of every real schedule, which only strengthens the invariant proved). -/

/-- Shared governor state plus the number of threads between the two
counter increments (past main.go line 69, before line 71). -/
structure ConcState where
  client : RequestManager
  inflight : Nat
deriving DecidableEq

/-- The two atomic writes of `Request`, interleaved arbitrarily across
threads. -/
inductive GovStep : ConcState → ConcState → Prop where
  /-- A thread executes main.go line 69: `totalRequests.Add(1)`. -/
  | issue (c : RequestManager) (n : Nat) :
      GovStep ⟨c, n⟩ ⟨{ c with totalRequests := c.totalRequests + 1 }, n + 1⟩
  /-- A thread past line 69 executes line 71: `requestsFinished.Add(1)`. -/
  | complete (c : RequestManager) (n : Nat) :
      GovStep ⟨c, n + 1⟩
        ⟨{ c with requestsFinished := c.requestsFinished + 1 }, n⟩

/-- The initial governor state of a run with ceiling `m` and retry delay
`r`: both counters zero, no thread mid-request. -/
def govInit (m : Int) (r : Nat) : ConcState :=
  ⟨{ totalRequests := 0, requestsFinished := 0,
     maxConcurrentRequests := m, requestRetryDelay := r }, 0⟩

/-- The states a run can reach by any interleaving. -/
def GovReachable (m : Int) (r : Nat) (s : ConcState) : Prop :=
  Relation.ReflTransGen GovStep (govInit m r) s

/-! ## The end-to-end scenario of spec §8

A registry index with two package anchors (`pkgA` → `/simple/pkga/`,
`pkgB` → `/simple/pkgb/`), each package page exposing one distribution
anchor, and HEAD responses reporting content lengths 1024 and 2048. -/

/-- The registry index page of the scenario. -/
def scenarioIndexBody : List Char :=
  ("<a href=\"/simple/pkga/\">pkgA</a>\n<a href=\"/simple/pkgb/\">pkgB</a>").data

/-- The scenario's network. -/
def scenarioNet : Net where
  index := .ok { requestURL := ⟨"https", "pypi.org", "/simple/"⟩, contentLength := -1,
                 body := .ok scenarioIndexBody }
  pageGet := fun u =>
    if u = "https://pypi.org/simple/pkga/" then
      .ok { requestURL := ⟨"https", "pypi.org", "/simple/pkga/"⟩, contentLength := -1,
            body := .ok ("<a href=\"https://files.example/a1.whl\">a1.whl</a>").data }
    else if u = "https://pypi.org/simple/pkgb/" then
      .ok { requestURL := ⟨"https", "pypi.org", "/simple/pkgb/"⟩, contentLength := -1,
            body := .ok ("<a href=\"https://files.example/b1.whl\">b1.whl</a>").data }
    else .error (.netError "unexpected GET")
  headGet := fun u =>
    if u = "https://files.example/a1.whl" then
      .ok { requestURL := ⟨"https", "files.example", "/a1.whl"⟩, contentLength := 1024,
            body := .ok [] }
    else if u = "https://files.example/b1.whl" then
      .ok { requestURL := ⟨"https", "files.example", "/b1.whl"⟩, contentLength := 2048,
            body := .ok [] }
    else .error (.netError "unexpected HEAD")

/-- The header plus the two data rows, as csv bytes — what spec §8 expects
the output file to contain. -/
def scenarioExpectedRows : List Char :=
  ("Package,Distribution,Size\npkgA,a1.whl,1024\npkgB,b1.whl,2048\n").data

/-! # Theorems -/

/-! ## C1 — the registry index fetch and the governor -/

/-- C1, counterexample.  The claim states that the registry index fetch of
Package Discovery increments the Governor's issued and completed counters
exactly once each.  It does not: `getPackages` (main.go line 148) fetches
with `http.Get`, the plain default client, so at the concrete input below
(a fresh manager and the scenario's registry response) neither counter
changes. -/
theorem c1_counterexample :
    ¬ ((getPackagesSt ⟨0, 0, 10000, 1000000000⟩ scenarioNet.index).2.totalRequests =
         (0 : Nat) + 1 ∧
       (getPackagesSt ⟨0, 0, 10000, 1000000000⟩ scenarioNet.index).2.requestsFinished =
         (0 : Nat) + 1) := by
  decide

/-- C1, amended: Package Discovery's single fetch of the registry index
page is issued with the plain default HTTP client (`http.Get`), not as a
governed `Get`: it does not pass through the Concurrency Governor and
leaves the Governor's issued and completed counters unchanged (in `main`
the Governor is only constructed after discovery returns). -/
theorem c1_index_fetch_ungoverned (client : RequestManager)
    (net : Except GoError HttpResponse) :
    (getPackagesSt client net).2.totalRequests = client.totalRequests ∧
    (getPackagesSt client net).2.requestsFinished = client.requestsFinished ∧
    (getPackagesSt client net).1 = getPackages net :=
  ⟨rfl, rfl, rfl⟩

/-! ## C2 — the running count is never negative -/

/-- C2: in every reachable state of the governor — any number of threads
concurrently inside `Request`, interleaved arbitrarily — the running count
returned by `getRunningRequests` is non-negative, because within every
call the increment of `totalRequests` (line 69) happens before the
increment of `requestsFinished` (line 71). -/
theorem c2_running_count_nonneg (m : Int) (r : Nat) (s : ConcState)
    (hreach : GovReachable m r s) :
    0 ≤ s.client.getRunningRequests := by
  have key : s.client.totalRequests = s.client.requestsFinished + s.inflight := by
    induction hreach with
    | refl => rfl
    | tail _ step ih =>
      cases step with
      | issue c n => simp_all; omega
      | complete c n => simp_all; omega
  simp only [RequestManager.getRunningRequests, key]
  push_cast
  omega

/-- C2, witness: the state reached from a fresh governor by one thread
passing line 69 (one issued, none completed, one in flight). -/
theorem c2_witness :
    0 ≤ (ConcState.mk ⟨0 + 1, 0, 10000, 1000000000⟩ (0 + 1)).client.getRunningRequests :=
  c2_running_count_nonneg 10000 1000000000 _
    (Relation.ReflTransGen.single (GovStep.issue _ 0))

/-! ## C3 — `Request` error handling and counter discipline -/

/-- C3: for every call to `Request` that is not blocked by the spin-wait:
if the URL fails to parse, the call returns the `MalformedURL` error, its
result does not depend on the network (no network call is made), and the
counters are unchanged; if the URL parses, both counters are incremented
exactly once each and the network outcome — success or error — is
returned as-is.  `Get` and `Head` are exactly `Request` with the fixed
method. -/
theorem c3_request_counters (client : RequestManager) (method request_url : String)
    (hroom : client.getRunningRequests < client.maxConcurrentRequests) :
    (urlParse request_url = none → ∀ net,
        client.Request method request_url net =
          some (.error (.malformedURL request_url), client)) ∧
    (∀ u, urlParse request_url = some u → ∀ net,
        client.Request method request_url net =
          some (net, { client with
            totalRequests := client.totalRequests + 1,
            requestsFinished := client.requestsFinished + 1 })) ∧
    (∀ net, client.Get request_url net = client.Request "GET" request_url net) ∧
    (∀ net, client.Head request_url net = client.Request "HEAD" request_url net) := by
  refine ⟨?_, ?_, fun _ => rfl, fun _ => rfl⟩
  · intro hp net
    simp [RequestManager.Request, not_le.mpr hroom, hp]
  · intro u hp net
    simp [RequestManager.Request, not_le.mpr hroom, hp]

/-- C3, witness: a fresh manager, a well-formed URL, and a failing
network call — the error is propagated and both counters still advance by
exactly one. -/
theorem c3_witness :
    (⟨0, 0, 10000, 1000000000⟩ : RequestManager).getRunningRequests <
      (⟨0, 0, 10000, 1000000000⟩ : RequestManager).maxConcurrentRequests ∧
    RequestManager.Request ⟨0, 0, 10000, 1000000000⟩ "GET" "https://pypi.org/simple/"
        (.error (.netError "connection refused")) =
      some (.error (.netError "connection refused"), ⟨1, 1, 10000, 1000000000⟩) :=
  ⟨by decide,
   (c3_request_counters ⟨0, 0, 10000, 1000000000⟩ "GET" "https://pypi.org/simple/"
        (by decide)).2.1
      ⟨"https", "pypi.org", "/simple/"⟩ (by decide) _⟩

/-! ## C10 — a failed size probe returns the pair `(0, error)` -/

/-- C10: whenever `getSizeBytes` returns with an error — whatever made
the governed `Head` fail — the size value accompanying the error is
exactly 0 (main.go line 95). -/
theorem c10_error_size_zero (dist : Distribution) (c c' : RequestManager)
    (net : Except GoError HttpResponse) (size : Int) (e : GoError)
    (h : dist.getSizeBytes c net = some ((size, some e), c')) :
    size = 0 := by
  unfold Distribution.getSizeBytes at h
  cases hh : RequestManager.Head c dist.url net with
  | none => rw [hh] at h; exact absurd h (by simp)
  | some rc =>
    obtain ⟨res, c''⟩ := rc
    rw [hh] at h
    cases res with
    | error e' => simp at h; exact h.1.1.symm
    | ok response => simp at h

/-- C10, witness: a failing HEAD against a fresh manager yields size 0
alongside the error. -/
theorem c10_witness :
    (Distribution.getSizeBytes ⟨⟨"pkgA", "u"⟩, "a1.whl", "https://files.example/a1.whl"⟩
        ⟨0, 0, 10000, 1000000000⟩ (.error (.netError "timeout")) =
      some ((0, some (.netError "timeout")), ⟨1, 1, 10000, 1000000000⟩)) ∧
    (0 : Int) = 0 :=
  ⟨by decide,
   c10_error_size_zero ⟨⟨"pkgA", "u"⟩, "a1.whl", "https://files.example/a1.whl"⟩
     ⟨0, 0, 10000, 1000000000⟩ ⟨1, 1, 10000, 1000000000⟩
     (.error (.netError "timeout")) 0 (.netError "timeout") (by decide)⟩

/-! ## C5 — package discovery resolves anchors against the final URL -/

/-- C5: with anchors extracted from the body, discovery produces exactly
one `Package` per anchor in anchor order, each `url` being the href
resolved as a relative reference against the response's final URL
(`response.Request.URL`); if any href fails to parse the whole discovery
returns the `MalformedURL` error and no package list. -/
theorem c5_package_resolution (base : GoURL) (anchors : List AnchorTag) :
    ((∀ a ∈ anchors, (urlParse a.href).isSome) →
       resolveAnchors base anchors = .ok (anchors.map fun a =>
         { name := a.text,
           url := (base.resolveReference
             ((urlParse a.href).getD ⟨"", "", ""⟩)).render })) ∧
    ((∃ a ∈ anchors, urlParse a.href = none) →
       ∃ badHref, resolveAnchors base anchors = .error (.malformedURL badHref)) ∧
    (∀ resp body, resp.body = .ok body →
       getPackages (.ok resp) = resolveAnchors resp.requestURL (exctractUrls body)) := by
  refine ⟨?_, ?_, ?_⟩
  · intro hall
    induction anchors with
    | nil => rfl
    | cons a rest ih =>
      obtain ⟨u, hu⟩ := Option.isSome_iff_exists.mp (hall a (by simp))
      have hrest := ih fun x hx => hall x (by simp [hx])
      simp [resolveAnchors, hu, hrest]
  · intro hbad
    induction anchors with
    | nil => simp at hbad
    | cons a rest ih =>
      cases hu : urlParse a.href with
      | none => exact ⟨a.href, by simp [resolveAnchors, hu]⟩
      | some u =>
        obtain ⟨b, hb, hbn⟩ := hbad
        rcases List.mem_cons.mp hb with rfl | hbr
        · rw [hu] at hbn; cases hbn
        · obtain ⟨bad, hbadeq⟩ := ih ⟨b, hbr, hbn⟩
          exact ⟨bad, by simp [resolveAnchors, hu, hbadeq]⟩
  · intro resp body hbody
    simp [getPackages, hbody]

/-- C5, witness: the spec's example — base `https://x/simple/`, a single
anchor with href `pkg-a/` — yields the package url
`https://x/simple/pkg-a/` by standard relative-reference resolution. -/
theorem c5_witness :
    (∀ a ∈ [({ href := "pkg-a/", text := "pkg-a" } : AnchorTag)],
        (urlParse a.href).isSome) ∧
    resolveAnchors ⟨"https", "x", "/simple/"⟩
        [{ href := "pkg-a/", text := "pkg-a" }] =
      .ok [{ name := "pkg-a", url := "https://x/simple/pkg-a/" }] :=
  ⟨by decide,
   ((c5_package_resolution ⟨"https", "x", "/simple/"⟩
        [{ href := "pkg-a/", text := "pkg-a" }]).1 (by decide)).trans rfl⟩

/-! ## C6 — distribution discovery maps anchors verbatim -/

/-- C6: for a package whose url parses, with the governor not saturated:
a failing governed `Get` or a failing body read yields exactly that error
(and no distributions); a successful fetch yields exactly one
`Distribution` per extracted anchor, in anchor order, with `url` the
anchor's href taken verbatim (not re-resolved) and `name` the anchor's
text. -/
theorem c6_distributions_verbatim (pkg : Package) (c : RequestManager) (u : GoURL)
    (hroom : c.getRunningRequests < c.maxConcurrentRequests)
    (hparse : urlParse pkg.url = some u) :
    (∀ e, pkg.getDistributions c (.error e) =
       some (.error e,
         { c with totalRequests := c.totalRequests + 1,
                  requestsFinished := c.requestsFinished + 1 })) ∧
    (∀ resp e, resp.body = .error e →
       pkg.getDistributions c (.ok resp) =
         some (.error e,
           { c with totalRequests := c.totalRequests + 1,
                    requestsFinished := c.requestsFinished + 1 })) ∧
    (∀ resp body, resp.body = .ok body →
       pkg.getDistributions c (.ok resp) =
         some (.ok ((exctractUrls body).map fun anchorTag =>
             { pkg := pkg, name := anchorTag.text, url := anchorTag.href }),
           { c with totalRequests := c.totalRequests + 1,
                    requestsFinished := c.requestsFinished + 1 })) := by
  refine ⟨?_, ?_, ?_⟩
  · intro e
    simp [Package.getDistributions, RequestManager.Get, RequestManager.Request,
      not_le.mpr hroom, hparse]
  · intro resp e hbody
    simp [Package.getDistributions, RequestManager.Get, RequestManager.Request,
      not_le.mpr hroom, hparse, hbody]
  · intro resp body hbody
    simp [Package.getDistributions, RequestManager.Get, RequestManager.Request,
      not_le.mpr hroom, hparse, hbody]

/-- C6, witness: the scenario's pkgA page — one anchor, href kept
verbatim as the distribution url, text as its name. -/
theorem c6_witness :
    ((⟨0, 0, 10000, 1000000000⟩ : RequestManager).getRunningRequests <
        (10000 : Int) ∧
      urlParse "https://pypi.org/simple/pkga/" =
        some ⟨"https", "pypi.org", "/simple/pkga/"⟩) ∧
    Package.getDistributions ⟨"pkgA", "https://pypi.org/simple/pkga/"⟩
        ⟨0, 0, 10000, 1000000000⟩
        (.ok { requestURL := ⟨"https", "pypi.org", "/simple/pkga/"⟩,
               contentLength := -1,
               body := .ok ("<a href=\"https://files.example/a1.whl\">a1.whl</a>").data }) =
      some (.ok [{ pkg := ⟨"pkgA", "https://pypi.org/simple/pkga/"⟩,
                   name := "a1.whl", url := "https://files.example/a1.whl" }],
        ⟨1, 1, 10000, 1000000000⟩) :=
  ⟨⟨by decide, by decide⟩,
   ((c6_distributions_verbatim ⟨"pkgA", "https://pypi.org/simple/pkga/"⟩
        ⟨0, 0, 10000, 1000000000⟩ ⟨"https", "pypi.org", "/simple/pkga/"⟩
        (by decide) (by decide)).2.2
      { requestURL := ⟨"https", "pypi.org", "/simple/pkga/"⟩,
        contentLength := -1,
        body := .ok ("<a href=\"https://files.example/a1.whl\">a1.whl</a>").data }
      ("<a href=\"https://files.example/a1.whl\">a1.whl</a>").data rfl).trans rfl⟩

/-! ## C7 — the end-to-end scenario (spec §8) -/

/-- C7: the claim says that after the scenario run completes and the sink
is closed, the output file contains the header row plus the two data
rows.  The code disagrees: `main` never calls `writer.Flush()`, and
`f.Close()` does not flush the csv writer's bufio layer, so the 56 bytes
of header and rows never overflow the 4096-byte buffer and the file is
left EMPTY — the expected rows sit, complete and in order, only in the
in-memory buffer when the process exits.  This theorem evaluates the
model of `main` at the claim's exact scenario. -/
theorem c7_scenario_file_empty :
    mainRun scenarioNet =
      RunResult.done
        { client := { totalRequests := 4, requestsFinished := 4,
                      maxConcurrentRequests := 10000,
                      requestRetryDelay := 1000000000 },
          counters := ⟨2, 2, 3072⟩,
          sink := { file := [], buf := scenarioExpectedRows } } ∧
    scenarioExpectedRows ≠ [] := by
  constructor
  · decide
  · decide

/-! ## C8 — negative sizes in appended rows -/

/-- C8, counterexample.  The claim states no row with a negative size is
ever written.  But a successful HEAD whose response does not report a
content length yields `ContentLength = -1`, `getSizeBytes` returns
`(-1, nil)`, and the crawl loop appends the row with size field `-1`:
at the concrete input below the step completes without aborting and the
row `pkgA,a1.whl,-1` is appended to the sink. -/
theorem c8_counterexample :
    distStep ⟨"pkgA", "https://pypi.org/simple/pkga/"⟩
      ⟨⟨"pkgA", "https://pypi.org/simple/pkga/"⟩, "a1.whl",
        "https://files.example/a1.whl"⟩
      (.ok { requestURL := ⟨"https", "files.example", "/a1.whl"⟩,
             contentLength := -1, body := .ok [] })
      { client := ⟨0, 0, 10000, 1000000000⟩, counters := ⟨0, 0, 0⟩,
        sink := ⟨[], []⟩ } =
      some ({ client := ⟨1, 1, 10000, 1000000000⟩,
              counters := ⟨0, 1, 18446744073709551615⟩,
              sink := ⟨[], ("pkgA,a1.whl,-1\n").data⟩ }, none) := by
  decide

/-- C8, amended: every data row appended to the Result Sink carries, as
its size field, exactly the content length returned by its successful
Size Probe — non-negative whenever the response reported a known length,
but negative (`-1`) when a successful HEAD reports an unknown length; and
when the probe fails, the run aborts with no row appended for it. -/
theorem c8_row_size_is_probe_result (pkg : Package) (distribution : Distribution)
    (resp : HttpResponse) (e : GoError) (s : MainState) (u : GoURL)
    (hroom : s.client.getRunningRequests < s.client.maxConcurrentRequests)
    (hparse : urlParse distribution.url = some u) :
    (distStep pkg distribution (.ok resp) s =
      some ({ client := { s.client with
                totalRequests := s.client.totalRequests + 1,
                requestsFinished := s.client.requestsFinished + 1 },
              counters := { s.counters with
                distributionsFound := (s.counters.distributionsFound + 1) % 2 ^ 32,
                totalSizeBytes := (s.counters.totalSizeBytes +
                  (resp.contentLength % 2 ^ 64).toNat) % 2 ^ 64 },
              sink := s.sink.write
                [pkg.name, distribution.name, toString resp.contentLength] },
            none)) ∧
    (distStep pkg distribution (.error e) s =
      some ({ s with
              client := { s.client with
                totalRequests := s.client.totalRequests + 1,
                requestsFinished := s.client.requestsFinished + 1 },
              counters := { s.counters with
                distributionsFound := (s.counters.distributionsFound + 1) % 2 ^ 32,
                totalSizeBytes := (s.counters.totalSizeBytes +
                  ((0 : Int) % 2 ^ 64).toNat) % 2 ^ 64 } },
            some e)) := by
  constructor
  · simp [distStep, Distribution.getSizeBytes, RequestManager.Head,
      RequestManager.Request, not_le.mpr hroom, hparse]
  · simp [distStep, Distribution.getSizeBytes, RequestManager.Head,
      RequestManager.Request, not_le.mpr hroom, hparse]

/-- C8 (amended), witness: a known content length of 1024 is appended
verbatim as the row's size field. -/
theorem c8_witness :
    ((⟨⟨0, 0, 10000, 1000000000⟩, ⟨0, 0, 0⟩, ⟨[], []⟩⟩ : MainState).client.getRunningRequests <
        (10000 : Int) ∧
      urlParse "https://files.example/a1.whl" =
        some ⟨"https", "files.example", "/a1.whl"⟩) ∧
    distStep ⟨"pkgA", "https://pypi.org/simple/pkga/"⟩
        ⟨⟨"pkgA", "https://pypi.org/simple/pkga/"⟩, "a1.whl",
          "https://files.example/a1.whl"⟩
        (.ok { requestURL := ⟨"https", "files.example", "/a1.whl"⟩,
               contentLength := 1024, body := .ok [] })
        ⟨⟨0, 0, 10000, 1000000000⟩, ⟨0, 0, 0⟩, ⟨[], []⟩⟩ =
      some (⟨⟨1, 1, 10000, 1000000000⟩, ⟨0, 1, 1024⟩,
             CsvSink.write ⟨[], []⟩ ["pkgA", "a1.whl", toString (1024 : Int)]⟩,
            none) :=
  ⟨⟨by decide, by decide⟩,
   (c8_row_size_is_probe_result ⟨"pkgA", "https://pypi.org/simple/pkga/"⟩
      ⟨⟨"pkgA", "https://pypi.org/simple/pkga/"⟩, "a1.whl",
        "https://files.example/a1.whl"⟩
      { requestURL := ⟨"https", "files.example", "/a1.whl"⟩,
        contentLength := 1024, body := .ok [] }
      (.netError "unused") ⟨⟨0, 0, 10000, 1000000000⟩, ⟨0, 0, 0⟩, ⟨[], []⟩⟩
      ⟨"https", "files.example", "/a1.whl"⟩ (by decide) (by decide)).1⟩

/-! ## C9 — `totalSizeBytes` adds the two's-complement cast before the
error check -/

/-- C9: `totalSizeBytes.Add(uint64(size))` (main.go line 230) precedes the
error check (line 231).  So a successful probe returning a negative size
`z` (an int64, hence `-2^63 ≤ z`) advances the counter by
`(2^64 + z) mod 2^64` — for `z = -1`, by `2^64 - 1` — and a failed probe
advances it by exactly 0 even though the run then panics. -/
theorem c9_total_size_cast (pkg : Package) (distribution : Distribution)
    (resp : HttpResponse) (e : GoError) (s : MainState) (u : GoURL)
    (hroom : s.client.getRunningRequests < s.client.maxConcurrentRequests)
    (hparse : urlParse distribution.url = some u)
    (hstored : s.counters.totalSizeBytes < 2 ^ 64) :
    (resp.contentLength < 0 → -2 ^ 63 ≤ resp.contentLength →
       distStep pkg distribution (.ok resp) s =
         some ({ client := { s.client with
                   totalRequests := s.client.totalRequests + 1,
                   requestsFinished := s.client.requestsFinished + 1 },
                 counters := { s.counters with
                   distributionsFound := (s.counters.distributionsFound + 1) % 2 ^ 32,
                   totalSizeBytes := (s.counters.totalSizeBytes +
                     (2 ^ 64 + resp.contentLength).toNat) % 2 ^ 64 },
                 sink := s.sink.write
                   [pkg.name, distribution.name, toString resp.contentLength] },
               none)) ∧
    (distStep pkg distribution (.error e) s =
       some ({ s with
               client := { s.client with
                 totalRequests := s.client.totalRequests + 1,
                 requestsFinished := s.client.requestsFinished + 1 },
               counters := { s.counters with
                 distributionsFound := (s.counters.distributionsFound + 1) % 2 ^ 32 } },
             some e)) := by
  constructor
  · intro hneg hlo
    simp [distStep, Distribution.getSizeBytes, RequestManager.Head,
      RequestManager.Request, not_le.mpr hroom, hparse]
    omega
  · simp [distStep, Distribution.getSizeBytes, RequestManager.Head,
      RequestManager.Request, not_le.mpr hroom, hparse]
    omega

/-- C9, witness: an unknown length (`-1`) advances the counter from 0 to
`2^64 - 1`. -/
theorem c9_witness :
    ((-1 : Int) < 0 ∧ (-2 ^ 63 : Int) ≤ -1) ∧
    distStep ⟨"pkgA", "https://pypi.org/simple/pkga/"⟩
        ⟨⟨"pkgA", "https://pypi.org/simple/pkga/"⟩, "a1.whl",
          "https://files.example/a1.whl"⟩
        (.ok { requestURL := ⟨"https", "files.example", "/a1.whl"⟩,
               contentLength := -1, body := .ok [] })
        ⟨⟨0, 0, 10000, 1000000000⟩, ⟨0, 0, 0⟩, ⟨[], []⟩⟩ =
      some (⟨⟨1, 1, 10000, 1000000000⟩, ⟨0, 1, 18446744073709551615⟩,
             CsvSink.write ⟨[], []⟩ ["pkgA", "a1.whl", toString (-1 : Int)]⟩,
            none) :=
  ⟨⟨by decide, by decide⟩,
   (c9_total_size_cast ⟨"pkgA", "https://pypi.org/simple/pkga/"⟩
      ⟨⟨"pkgA", "https://pypi.org/simple/pkga/"⟩, "a1.whl",
        "https://files.example/a1.whl"⟩
      { requestURL := ⟨"https", "files.example", "/a1.whl"⟩,
        contentLength := -1, body := .ok [] }
      (.netError "unused") ⟨⟨0, 0, 10000, 1000000000⟩, ⟨0, 0, 0⟩, ⟨[], []⟩⟩
      ⟨"https", "files.example", "/a1.whl"⟩ (by decide) (by decide)
      (by decide)).1 (by decide) (by decide)⟩

/-! ## C4 — anchor extraction: helper lemmas -/

theorem dropLit_append (l s : List Char) : dropLit l (l ++ s) = some s := by
  induction l with
  | nil => rfl
  | cons c cs ih => simp [dropLit, ih]

theorem dropLit_length {l : List Char} : ∀ {s r : List Char}, dropLit l s = some r →
    s.length = l.length + r.length := by
  induction l with
  | nil =>
    intro s r h
    simp [dropLit] at h
    subst h
    simp
  | cons c cs ih =>
    intro s r h
    cases s with
    | nil => simp [dropLit] at h
    | cons d ds =>
      simp only [dropLit] at h
      split at h
      · have := ih h
        simp at this ⊢
        omega
      · cases h

theorem dropWhile_length_le (p : Char → Bool) (s : List Char) :
    (s.dropWhile p).length ≤ s.length := by
  induction s with
  | nil => simp
  | cons c cs ih =>
    rw [List.dropWhile_cons]
    split
    · simp
      omega
    · simp


theorem starGt_eq (c : Char) (cs : List Char) :
    starGt (c :: cs) = match if c ≠ '\n' then starGt cs else none with
      | some q => some q
      | none => if c = '>' then tailCap cs else none := rfl

theorem tailCap_length {s t r : List Char} (h : tailCap s = some (t, r)) :
    r.length ≤ s.length := by
  unfold tailCap at h
  cases hd : dropLit anchorClose (s.dropWhile (· ≠ '<')) with
  | none => rw [hd] at h; cases h
  | some rest =>
    rw [hd] at h
    have hpair : s.takeWhile (· ≠ '<') = t ∧ rest = r := by simpa using h
    have hlen := dropLit_length hd
    have hdw := dropWhile_length_le (· ≠ '<') s
    rw [hlen] at hdw
    rw [← hpair.2]
    simp [anchorClose] at hdw
    omega

theorem starGt_length : ∀ {s t r : List Char}, starGt s = some (t, r) →
    r.length < s.length := by
  intro s
  induction s with
  | nil => intro t r h; cases h
  | cons c cs ih =>
    intro t r h
    rw [starGt_eq] at h
    cases hd : (if c ≠ '\n' then starGt cs else none) with
    | some p =>
      rw [hd] at h
      have h2 : p = (t, r) := by simpa using h
      subst h2
      have hcs : starGt cs = some (t, r) := by
        by_cases hc : c ≠ '\n'
        · rw [if_pos hc] at hd; exact hd
        · rw [if_neg hc] at hd; cases hd
      have := ih hcs
      simp only [List.length_cons]
      omega
    | none =>
      rw [hd] at h
      have h2 : (if c = '>' then tailCap cs else none) = some (t, r) := h
      by_cases hc : c = '>'
      · rw [if_pos hc] at h2
        have := tailCap_length h2
        simp only [List.length_cons]
        omega
      · rw [if_neg hc] at h2; cases h2

theorem matchAnchor_eq (s : List Char) :
    matchAnchor s = match dropLit anchorOpen s with
      | none => none
      | some s1 =>
        match s1.dropWhile (· ≠ '"') with
        | [] => none
        | _ :: s2 =>
          match starGt s2 with
          | none => none
          | some (t, rest) =>
            some ({ href := ⟨s1.takeWhile (· ≠ '"')⟩, text := ⟨t⟩ }, rest) := rfl

theorem matchAnchor_length {s : List Char} {a : AnchorTag} {r : List Char}
    (h : matchAnchor s = some (a, r)) : r.length < s.length := by
  rw [matchAnchor_eq] at h
  cases h1 : dropLit anchorOpen s with
  | none => simp only [h1] at h; cases h
  | some s1 =>
    simp only [h1] at h
    have hs1 := dropLit_length h1
    cases h2 : s1.dropWhile (· ≠ '"') with
    | nil => simp only [h2] at h; cases h
    | cons q s2 =>
      simp only [h2] at h
      have hdw := dropWhile_length_le (· ≠ '"') s1
      rw [h2] at hdw
      cases h3 : starGt s2 with
      | none => simp only [h3] at h; cases h
      | some p =>
        obtain ⟨t, rest⟩ := p
        simp only [h3, Option.some.injEq, Prod.mk.injEq] at h
        have hst := starGt_length h3
        have hr : rest = r := h.2
        subst hr
        simp only [anchorOpen, List.length_cons, List.length] at hs1
        simp only [List.length_cons] at hdw
        omega

theorem scanAux_succ (n : Nat) (c : Char) (cs : List Char) :
    scanAux (n + 1) (c :: cs) = match matchAnchor (c :: cs) with
      | some (a, rest) => a :: scanAux n rest
      | none => scanAux n cs := rfl

theorem scanAux_fuel : ∀ (f g : Nat) (s : List Char), s.length ≤ f → s.length ≤ g →
    scanAux f s = scanAux g s := by
  intro f
  induction f with
  | zero =>
    intro g s hf hg
    have hs : s = [] := List.eq_nil_of_length_eq_zero (Nat.le_zero.mp hf)
    subst hs
    cases g <;> rfl
  | succ f ih =>
    intro g s hf hg
    cases s with
    | nil => cases g <;> rfl
    | cons c cs =>
      cases g with
      | zero => simp at hg
      | succ g =>
        rw [scanAux_succ, scanAux_succ]
        cases hm : matchAnchor (c :: cs) with
        | none =>
          simp only [List.length_cons] at hf hg
          exact ih g cs (by omega) (by omega)
        | some p =>
          obtain ⟨a, rest⟩ := p
          have hlen := matchAnchor_length hm
          simp only [List.length_cons] at hf hg hlen
          exact congrArg (List.cons a) (ih g rest (by omega) (by omega))

theorem exctractUrls_match {s : List Char} (a : AnchorTag) (rest : List Char)
    (hm : matchAnchor s = some (a, rest)) :
    exctractUrls s = a :: exctractUrls rest := by
  cases s with
  | nil => cases hm
  | cons c cs =>
    show scanAux (cs.length + 1) (c :: cs) = _
    rw [scanAux_succ, hm]
    have hlen := matchAnchor_length hm
    simp only [List.length_cons] at hlen
    exact congrArg (List.cons a) (scanAux_fuel cs.length rest.length rest (by omega) le_rfl)

theorem exctractUrls_skip {s : List Char} (c : Char) (hm : matchAnchor (c :: s) = none) :
    exctractUrls (c :: s) = exctractUrls s := by
  show scanAux (s.length + 1) (c :: s) = _
  rw [scanAux_succ, hm]
  rfl

theorem takeWhile_app (p : Char → Bool) (a : List Char) (c : Char) (r : List Char)
    (ha : ∀ x ∈ a, p x = true) (hc : p c = false) :
    (a ++ c :: r).takeWhile p = a ∧ (a ++ c :: r).dropWhile p = c :: r := by
  induction a with
  | nil => simp [List.takeWhile_cons, List.dropWhile_cons, hc]
  | cons x xs ih =>
    have hx : p x = true := ha x (by simp)
    have ihr := ih fun y hy => ha y (by simp [hy])
    simp [List.takeWhile_cons, List.dropWhile_cons, hx, ihr.1, ihr.2]

theorem starGt_skip {c : Char} (h1 : c ≠ '\n') (h2 : c ≠ '>') (cs : List Char) :
    starGt (c :: cs) = starGt cs := by
  rw [starGt_eq, if_pos h1]
  cases hs : starGt cs with
  | some r => rfl
  | none => simp [if_neg h2]

theorem starGt_skip_all {t : List Char} (h : ∀ x ∈ t, x ≠ '\n' ∧ x ≠ '>') (v : List Char) :
    starGt (t ++ v) = starGt v := by
  induction t with
  | nil => rfl
  | cons x xs ih =>
    have hx := h x (by simp)
    rw [List.cons_append, starGt_skip hx.1 hx.2, ih fun y hy => h y (by simp [hy])]

theorem starGt_newline (rest : List Char) : starGt ('\n' :: rest) = none := rfl

theorem tailCap_newline {rest : List Char}
    (h : dropLit anchorClose (rest.dropWhile (· ≠ '<')) = none) :
    tailCap ('\n' :: rest) = none := by
  unfold tailCap
  rw [show ('\n' :: rest).dropWhile (· ≠ '<') = rest.dropWhile (· ≠ '<') from by
    rw [List.dropWhile_cons]; simp]
  rw [h]

theorem starGt_close_newline {rest : List Char}
    (h : dropLit anchorClose (rest.dropWhile (· ≠ '<')) = none) :
    starGt (anchorClose ++ '\n' :: rest) = none := by
  show starGt ('<' :: '/' :: 'a' :: '>' :: '\n' :: rest) = none
  rw [starGt_skip (by decide) (by decide), starGt_skip (by decide) (by decide),
    starGt_skip (by decide) (by decide)]
  show tailCap ('\n' :: rest) = none
  exact tailCap_newline h

theorem matchAnchor_core (h t tail : List Char)
    (hh : '"' ∉ h) (ht1 : '<' ∉ t) (ht2 : '>' ∉ t) (ht3 : '\n' ∉ t)
    (hblock : starGt (anchorClose ++ tail) = none) :
    matchAnchor (anchorCore h t ++ tail) = some ({ href := ⟨h⟩, text := ⟨t⟩ }, tail) := by
  have e1 : anchorCore h t ++ tail =
      anchorOpen ++ (h ++ '"' :: '>' :: (t ++ (anchorClose ++ tail))) := by
    simp [anchorCore]
  have e2 := takeWhile_app (fun x => decide (x ≠ '"')) h '"'
    ('>' :: (t ++ (anchorClose ++ tail)))
    (fun x hx => decide_eq_true (ne_of_mem_of_not_mem hx hh)) (by simp)
  have e3 : starGt ('>' :: (t ++ (anchorClose ++ tail))) = some (t, tail) := by
    rw [starGt_eq, if_pos (by decide)]
    rw [starGt_skip_all
      (fun x hx => ⟨ne_of_mem_of_not_mem hx ht3, ne_of_mem_of_not_mem hx ht2⟩)]
    rw [hblock]
    show (if '>' = '>' then tailCap (t ++ (anchorClose ++ tail)) else none) = some (t, tail)
    rw [if_pos rfl]
    unfold tailCap
    have e4 := takeWhile_app (fun x => decide (x ≠ '<')) t '<' ('/' :: 'a' :: '>' :: tail)
      (fun x hx => decide_eq_true (ne_of_mem_of_not_mem hx ht1)) (by simp)
    rw [show t ++ (anchorClose ++ tail) = t ++ '<' :: ('/' :: 'a' :: '>' :: tail) from rfl]
    rw [e4.2, e4.1]
    rw [show ('<' :: ('/' :: 'a' :: '>' :: tail)) = anchorClose ++ tail from rfl,
      dropLit_append]
  rw [matchAnchor_eq, e1, dropLit_append]
  simp only [e2.2, e3, e2.1]

theorem joinLines_extract : ∀ (ps : List (List Char × List Char)),
    (∀ p ∈ ps, LineOK p) →
    exctractUrls (joinLines ps) = ps.map fun p => { href := ⟨p.1⟩, text := ⟨p.2⟩ } := by
  intro ps
  induction ps with
  | nil => intro _; rfl
  | cons p rest ih =>
    intro hok
    obtain ⟨h, t⟩ := p
    obtain ⟨hh, ht1, ht2, ht3⟩ := hok (h, t) (by simp)
    have hrest := ih fun q hq => hok q (by simp [hq])
    have hblock : starGt (anchorClose ++ '\n' :: joinLines rest) = none := by
      apply starGt_close_newline
      cases rest with
      | nil => rfl
      | cons q qs =>
        obtain ⟨h', t'⟩ := q
        rw [show joinLines ((h', t') :: qs) =
            '<' :: ('a' :: ' ' :: 'h' :: 'r' :: 'e' :: 'f' :: '=' :: '"' ::
              (h' ++ '"' :: '>' :: (t' ++ anchorClose)) ++ '\n' :: joinLines qs) from by
          simp [joinLines, anchorCore, anchorOpen]]
        rw [List.dropWhile_cons]
        simp [dropLit, anchorClose]
    have hstep := matchAnchor_core h t ('\n' :: joinLines rest) hh ht1 ht2 ht3 hblock
    rw [show joinLines ((h, t) :: rest) = anchorCore h t ++ '\n' :: joinLines rest from rfl]
    rw [exctractUrls_match _ _ hstep]
    rw [exctractUrls_skip '\n' rfl]
    rw [hrest]
    simp

theorem extract_empty : ∀ {s : List Char}, containsAnchorOpen s = false →
    exctractUrls s = [] := by
  intro s
  induction s with
  | nil => intro _; rfl
  | cons c cs ih =>
    intro hno
    rw [show containsAnchorOpen (c :: cs) =
        ((dropLit anchorOpen (c :: cs)).isSome || containsAnchorOpen cs) from rfl] at hno
    simp only [Bool.or_eq_false_iff] at hno
    obtain ⟨h1, h2⟩ := hno
    have hm : matchAnchor (c :: cs) = none := by
      rw [matchAnchor_eq]
      cases hd : dropLit anchorOpen (c :: cs) with
      | none => rfl
      | some s1 => rw [hd] at h1; simp at h1
    rw [exctractUrls_skip c hm]
    exact ih h2

/-! ## C4 — the anchor-extraction claims -/

/-- C4, counterexample.  The claim states that for EVERY input containing
`<a href="H">T</a>` (H without a double quote, T without angle brackets)
the extractor's output contains `{href:H, text:T}` at the corresponding
position.  It does not: on `<a href="A">x</a><a href="B">y</a>` — which
contains the well-formed anchor `<a href="A">x</a>` — the greedy `.*`
spans from the first anchor's closing quote to the second anchor's `>`,
producing the single merged pair `{href:A, text:y}`; the pair
`{href:A, text:x}` is not in the output at all. -/
theorem c4_counterexample :
    exctractUrls ("<a href=\"A\">x</a><a href=\"B\">y</a>").data =
      [{ href := "A", text := "y" }] ∧
    ({ href := "A", text := "x" } : AnchorTag) ∉
      exctractUrls ("<a href=\"A\">x</a><a href=\"B\">y</a>").data := by
  constructor
  · decide
  · decide

/-- C4, amended: (1) for every sequence of newline-terminated anchor
lines, each exactly `<a href="H">T</a>` with H containing no double quote
and T containing no angle brackets and no newline, the extractor outputs
exactly the pairs `{href:H, text:T}` in document order (the original
claim's per-occurrence guarantee cannot survive two anchors, or a second
`>` / `</a>`, on one line: the greedy `.*` then merges them — see the
counterexample); (2) every input that does not even contain the literal
`<a href="` yields the empty output (the original "zero well-formed
anchors implies empty" is also too strong: the regex matches inputs such
as `<a href="A" class="c">x</a>` that contain no strictly well-formed
anchor). -/
theorem c4_anchor_extraction :
    (∀ ps : List (List Char × List Char), (∀ p ∈ ps, LineOK p) →
       exctractUrls (joinLines ps) = ps.map fun p => { href := ⟨p.1⟩, text := ⟨p.2⟩ }) ∧
    (∀ s : List Char, containsAnchorOpen s = false → exctractUrls s = []) :=
  ⟨joinLines_extract, fun _ h => extract_empty h⟩

/-- C4 (amended), witness: two concrete anchor lines extract to their two
pairs in order. -/
theorem c4_witness :
    (∀ p ∈ [("A".data, "pkgA".data), ("B".data, "pkgB".data)], LineOK p) ∧
    exctractUrls (joinLines [("A".data, "pkgA".data), ("B".data, "pkgB".data)]) =
      [("A".data, "pkgA".data), ("B".data, "pkgB".data)].map
        (fun p => { href := ⟨p.1⟩, text := ⟨p.2⟩ }) :=
  ⟨by decide, c4_anchor_extraction.1 _ (by decide)⟩
